import Mathlib

/-!
# PlantBuddy — verification of the natural-language specification

Shallow embedding, in Lean 4, of the parts of the PlantBuddy repository that
the specification's claims talk about:

* `src/services/geminiService.ts`   — chat-completion wrapper (history merging,
  bounded retry loop with linear backoff, dataset analysis with fallback);
* `src/services/walrusUpload.ts`    — multi-endpoint sequential upload
  (`uploadSessionViaWalrusSDK`) and the serial-line parser of the device
  monitor component bundled in the same file (`parseSerialLine`);
* `src/services/walrusService.ts`   — single-endpoint upload (`uploadToWalrus`);
* `src/services/suiWalletService.ts`— wallet detection / connection / disconnect
  (`waitForWallet`, `connectSuiWallet`, `disconnectSuiWallet`);
* `src/App.tsx`                     — transcript export and the upload wizard
  step machine (`processUpload`).

External I/O (HTTP responses, wallet RPC results, the generative-AI API) is
represented by explicit outcome parameters: each embedded function takes the
observable behaviour of its collaborators as data and computes exactly what the
TypeScript does with it.  JavaScript exceptions are `Except`, JavaScript string
truthiness (`""` is falsy) is modelled explicitly where the source relies on it.
-/

/-! ## JavaScript-flavoured string helpers -/

/-- `pat` occurs as a contiguous substring of `l` (JavaScript
`String.prototype.includes` on the underlying character lists). -/
def listContains (pat : List Char) : List Char → Bool
  | [] => pat.isEmpty
  | c :: rest => pat.isPrefixOf (c :: rest) || listContains pat rest

/-- JavaScript `s.includes(pat)`. -/
def containsSub (s pat : String) : Bool := listContains pat.toList s.toList

/-- JavaScript truthiness of a possibly-absent string: `undefined`, `null` and
`""` are falsy, every other string is truthy. -/
def jsTruthy : Option String → Bool
  | none => false
  | some s => s ≠ ""

/-- JavaScript `a || b` on possibly-absent strings (`""` falls through). -/
def jsOr (a b : Option String) : Option String :=
  if jsTruthy a then a else b

/-- JavaScript `s.toLowerCase()` (character-wise ASCII lowering). -/
def lowerStr (s : String) : String := String.mk (s.toList.map Char.toLower)

namespace Gemini

/-! ## `src/services/geminiService.ts` (second revision, the one the claims
cite): history merging inside `generatePlantResponse` -/

/-- One entry of the `history` argument of `generatePlantResponse`, and also
one entry of the `contents` array it builds (whose `parts` array always has
exactly one element, so we keep the single text directly). -/
structure ChatMsg where
  role : String
  text : String
deriving DecidableEq, Repr

/-- `const role = msg.role === 'user' ? 'user' : 'model';` -/
def normalizeRole (r : String) : String := if r = "user" then "user" else "model"

/-- A history entry as it would enter `contents` unmerged. -/
def normMsg (m : ChatMsg) : ChatMsg := ⟨normalizeRole m.role, m.text⟩

/-- One iteration of the history loop of `generatePlantResponse`: if the last
element of `contents` has the same (normalized) role, append the text to it
with a `"\n"` separator, else push a fresh turn. -/
def mergeStep (contents : List ChatMsg) (msg : ChatMsg) : List ChatMsg :=
  let role := normalizeRole msg.role
  match contents.getLast? with
  | some last =>
      if last.role = role then
        contents.dropLast ++ [⟨last.role, last.text ++ "\n" ++ msg.text⟩]
      else
        contents ++ [⟨role, msg.text⟩]
  | none => [⟨role, msg.text⟩]

/-- The whole history-merging loop (`for (const msg of history) { ... }`). -/
def processHistory (history : List ChatMsg) : List ChatMsg :=
  history.foldl mergeStep []

/-- Adjacent turns have different roles. -/
def Alternating (l : List ChatMsg) : Prop :=
  List.Chain' (fun a b => a.role ≠ b.role) l

/-- Every role is literally `"user"` or `"model"`. -/
def ValidRoles (l : List ChatMsg) : Prop :=
  ∀ m ∈ l, m.role = "user" ∨ m.role = "model"

/-! ### The bounded retry loop of `generatePlantResponse`

`generatePlantResponse` wraps its `ai.models.generateContent` call in
`for (let attempt = 0; attempt <= MAX_RETRIES; attempt++) { try ... catch ... }`.
The outcome of the `attempt`-th call is supplied as data (`outcomes attempt`).
`getApiKey()` can never return `undefined` (it falls back to a hard-coded key),
so the in-loop missing-key early return is dead and not modelled. -/

/-- What the `attempt`-th `generateContent` call does: resolves with a response
whose `text` field is the given string (`""` models an absent/empty text, which
is falsy in JS), or rejects with an error whose message is given. -/
inductive GenOutcome where
  | ok (text : String)
  | err (message : String)

/-- `const MAX_RETRIES = 2;` -/
def MAX_RETRIES : Nat := 2

/-- The in-loop don't-retry test:
`errorStr.includes("api key") || errorStr.includes("invalid") || errorStr.includes("401") || errorStr.includes("403")`
(applied to the lower-cased message). -/
def isAuthLike (errorStr : String) : Bool :=
  containsSub errorStr "api key" || containsSub errorStr "invalid" ||
  containsSub errorStr "401" || containsSub errorStr "403"

/-- The in-loop retry test:
`errorStr.includes("rate limit") || errorStr.includes("429") || errorStr.includes("network") || errorStr.includes("timeout")`. -/
def isTransientLike (errorStr : String) : Bool :=
  containsSub errorStr "rate limit" || containsSub errorStr "429" ||
  containsSub errorStr "network" || containsSub errorStr "timeout"

/-- Observable result of the retry loop: `reply = some t` when the loop
returned from inside (a response arrived), otherwise the loop broke with
`lastError` set; `attemptsUsed` counts `generateContent` calls and `delaysMs`
the backoff sleeps (`1000 * (attempt + 1)` ms each) in order. -/
structure LoopResult where
  reply : Option String
  lastError : String
  attemptsUsed : Nat
  delaysMs : List Nat
deriving DecidableEq, Repr

/-- The retry loop itself.  `fuel` is the number of loop iterations still
permitted by the `attempt <= MAX_RETRIES` guard; the top-level call passes
`MAX_RETRIES + 1` with `attempt = 0`, and the `continue` branch is guarded by
`attempt < MAX_RETRIES`, so the `fuel = 0` default is unreachable from the
top-level call. -/
def retryLoopAux (outcomes : Nat → GenOutcome) : Nat → Nat → LoopResult
  | 0, attempt => ⟨none, "", attempt, []⟩
  | fuel + 1, attempt =>
    match outcomes attempt with
    | .ok t => ⟨some (if t ≠ "" then t else "I'm listening..."), "", attempt + 1, []⟩
    | .err msg =>
      let errorStr := lowerStr msg
      if isAuthLike errorStr then ⟨none, msg, attempt + 1, []⟩
      else if attempt < MAX_RETRIES && isTransientLike errorStr then
        let r := retryLoopAux outcomes fuel (attempt + 1)
        ⟨r.reply, r.lastError, r.attemptsUsed, 1000 * (attempt + 1) :: r.delaysMs⟩
      else ⟨none, msg, attempt + 1, []⟩

/-- The post-loop error handling (`// Handle final error after retries`). -/
def finalizeError (errorMessage : String) : String :=
  let errorStr := lowerStr errorMessage
  if isAuthLike errorStr then
    "(System: Invalid or missing API Key. Please click the Lock icon in the top-right to enter your Google Gemini API Key.)"
  else if containsSub errorStr "quota" || containsSub errorStr "rate limit" ||
      containsSub errorStr "429" then
    "(System: API quota exceeded. Please try again later or check your Gemini API quota.)"
  else if containsSub errorStr "network" || containsSub errorStr "fetch" ||
      containsSub errorStr "timeout" then
    "(System: Network error. Please check your internet connection and try again.)"
  else
    "(System: " ++ errorMessage.take 100 ++ ")"

/-- `generatePlantResponse`, abstracted over the per-attempt call outcomes:
the string it resolves with, together with the loop's observable trace. -/
def generatePlantResponse (outcomes : Nat → GenOutcome) : String × LoopResult :=
  let r := retryLoopAux outcomes (MAX_RETRIES + 1) 0
  match r.reply with
  | some t => (t, r)
  | none => (finalizeError r.lastError, r)

/-! ### `analyzeDatasetValue` -/

/-- The record `analyzeDatasetValue` resolves with. -/
structure Analysis where
  title : String
  description : String
  priceSuggestion : Int
deriving DecidableEq, Repr

/-- The fixed record returned by the `catch` block of `analyzeDatasetValue`. -/
def fallbackAnalysis : Analysis :=
  { title := "Raw Bio-Data Upload"
    description := "Unprocessed capacitance and audio logs from a PlantBuddy device."
    priceSuggestion := 50 }

/-- The prompt string `analyzeDatasetValue` builds around the summary. -/
def analysisPrompt (dataSummary : String) : String :=
  "\n      Analyze this raw plant-interaction dataset and package it for the Data Economy Marketplace.\n      \n      Dataset Summary:\n      "
  ++ dataSummary ++
  "\n      \n      Output JSON format only:\n      \x7b\n        \"title\": \"A catchy, modern title for this dataset\",\n        \"description\": \"A 2-sentence description highlighting the emotional value.\",\n        \"priceSuggestion\": number (between 100 and 1000)\n      \x7d\n    "

/-- `analyzeDatasetValue`, abstracted over its collaborators: the available API
key, the outcome of the `generateContent` call (`Except.error` = rejection,
`Except.ok t` = a response whose `text` field is `t`, with `none`/`""` falsy),
and `JSON.parse` on the response text.  Every failure is caught and turned
into `fallbackAnalysis`; the function never rejects. -/
def analyzeDatasetValue (apiKey : Option String)
    (callResult : Except String (Option String))
    (parseJson : String → Except String Analysis) : Analysis :=
  match apiKey with
  | none => fallbackAnalysis                -- `throw new Error("Missing API Key")`, caught
  | some _ =>
    match callResult with
    | .error _ => fallbackAnalysis          -- the remote call rejected, caught
    | .ok t =>
      if jsTruthy t then
        match parseJson (t.getD "") with
        | .error _ => fallbackAnalysis      -- `JSON.parse` threw, caught
        | .ok a => a
      else fallbackAnalysis                 -- `throw new Error("No analysis generated")`, caught

end Gemini

namespace WalrusUpload

/-! ## `src/services/walrusUpload.ts` (first revision, the one the claims
cite): `uploadSessionViaWalrusSDK` — sequential multi-endpoint upload -/

/-- The aggregator base used to derive the retrieval URL (`TESTNET` value of
`WALRUS_AGGREGATOR`). -/
def WALRUS_AGGREGATOR_TESTNET : String := "https://aggregator.walrus-testnet.walrus.space"

/-- The fields of a publisher's JSON success body that the blob-id extraction
chain looks at (`none` = absent). -/
structure WalrusJson where
  newlyCreated_blobObject_blobId : Option String
  newlyCreated_blobId : Option String
  alreadyCertified_blobId : Option String
  blobId : Option String
deriving DecidableEq, Repr

/-- `result.newlyCreated?.blobObject?.blobId || result.newlyCreated?.blobId ||
result.alreadyCertified?.blobId || result.blobId` (JS `\x7c\x7c`, so `""` falls
through). -/
def extractBlobId (j : WalrusJson) : Option String :=
  jsOr j.newlyCreated_blobObject_blobId
    (jsOr j.newlyCreated_blobId (jsOr j.alreadyCertified_blobId j.blobId))

/-- What the `fetch` against one candidate publisher endpoint does. -/
inductive UploadAttempt where
  | netErr (message : String)                     -- `fetch` rejected
  | badStatus (status : Nat) (bodyText : String)  -- `response.ok` false
  | okResponse (json : Except String WalrusJson)  -- 2xx; `response.json()` may throw
deriving Repr

/-- What `uploadSessionViaWalrusSDK` resolves with (the `certificate`/`raw`
fields of the source record are opaque pass-throughs and omitted). -/
structure UploadResult where
  blobId : String
  walrusUrl : String
deriving DecidableEq, Repr

/-- The `for (let i = 0; i < publishers.length; i++)` loop of
`uploadSessionViaWalrusSDK`, abstracted over the per-endpoint fetch outcomes
(`attempts.get i` is what the `i`-th publisher did).  Returns the loop's
result together with the number of fetches it performed.  Note the asymmetry
the source has: a non-2xx response `continue`s without throwing, so when the
*last* endpoint fails that way the loop falls through to the generic
`throw new Error("Walrus upload failed")`, while a thrown error (network
failure, JSON failure, missing blob id) on the last endpoint produces
`"All Walrus upload attempts failed. Last error: ..."`. -/
def uploadSessionViaWalrusSDK (aggregator : String) :
    List UploadAttempt → Except String UploadResult × Nat
  | [] => (.error "Walrus upload failed", 0)
  | o :: rest =>
    let caught (msg : String) : Except String UploadResult × Nat :=
      if rest.isEmpty then
        (.error ("All Walrus upload attempts failed. Last error: " ++ msg), 1)
      else
        let r := uploadSessionViaWalrusSDK aggregator rest
        (r.1, r.2 + 1)
    match o with
    | .netErr msg => caught msg
    | .badStatus _ _ =>
        let r := uploadSessionViaWalrusSDK aggregator rest
        (r.1, r.2 + 1)
    | .okResponse j =>
      match j with
      | .error msg => caught msg
      | .ok json =>
        let blobId := extractBlobId json
        if jsTruthy blobId then
          let bid := blobId.getD ""
          (.ok ⟨bid, aggregator ++ "/v1/" ++ bid⟩, 1)
        else
          caught "Upload successful but no blob ID returned."

end WalrusUpload

namespace WalrusService

/-! ## `src/services/walrusService.ts`: `uploadToWalrus` — single-endpoint
upload -/

inductive WalrusNetwork where
  | TESTNET
  | MAINNET
deriving DecidableEq, Repr

/-- `WALRUS_CONFIG[network].PUBLISHER`. -/
def publisherBase : WalrusNetwork → String
  | .TESTNET => "https://publisher.walrus-testnet.walrus.space"
  | .MAINNET => "https://publisher.walrus.site"

/-- `WALRUS_CONFIG[network].AGGREGATOR`. -/
def aggregatorBase : WalrusNetwork → String
  | .TESTNET => "https://aggregator.walrus-testnet.walrus.space"
  | .MAINNET => "https://aggregator.walrus.site"

/-- The URL the PUT goes to. -/
def storeUrl (network : WalrusNetwork) : String :=
  publisherBase network ++ "/v1/store?epochs=5"

structure NewlyCreated where
  blobObject_blobId : String
deriving DecidableEq, Repr

structure AlreadyCertified where
  blobId : String
deriving DecidableEq, Repr

/-- The shape of the publisher's success body (`WalrusUploadResponse`). -/
structure WalrusUploadResponse where
  newlyCreated : Option NewlyCreated
  alreadyCertified : Option AlreadyCertified
deriving DecidableEq, Repr

/-- What the single `fetch` did. -/
inductive HttpOutcome where
  | netErr (message : String)
  | resp (ok : Bool) (status : Nat) (bodyText : String)
      (json : Except String WalrusUploadResponse)
deriving Repr

structure StoreResult where
  blobId : String
  url : String
deriving DecidableEq, Repr

/-- `uploadToWalrus`, abstracted over the fetch outcome.  The `catch` block
only logs and rethrows, so every failure propagates as `Except.error`.
`content` is the PUT body; it does not influence the result. -/
def uploadToWalrus (content : String) (network : WalrusNetwork)
    (outcome : HttpOutcome) : Except String StoreResult :=
  match content, outcome with
  | _, .netErr msg => .error msg
  | _, .resp ok status bodyText json =>
    if !ok then
      .error ("Walrus Upload Failed: " ++ toString status ++ " " ++ bodyText)
    else
      match json with
      | .error msg => .error msg
      | .ok data =>
        match data.newlyCreated with
        | some nc =>
            .ok ⟨nc.blobObject_blobId,
                 aggregatorBase network ++ "/v1/" ++ nc.blobObject_blobId⟩
        | none =>
          match data.alreadyCertified with
          | some ac => .ok ⟨ac.blobId, aggregatorBase network ++ "/v1/" ++ ac.blobId⟩
          | none => .error "Unexpected Walrus response format"

end WalrusService

namespace DeviceMonitor

/-! ## `parseSerialLine` of the device-monitor component (bundled in
`src/services/walrusUpload.ts`) -/

/-- Membership in the character class `[\x5c-0-9.]` of the serial regex. -/
def isClassChar (c : Char) : Bool := c = '-' || c = '.' || c.isDigit

/-- Consume the literal `lit` at the head of `cs`. -/
def afterLit (lit : String) (cs : List Char) : Option (List Char) :=
  if lit.toList.isPrefixOf cs then some (cs.drop lit.toList.length) else none

/-- Consume a maximal nonempty run of class characters (one `([-0-9.]+)`
group): the matched run and the remainder. -/
def grabRun (cs : List Char) : Option (List Char × List Char) :=
  if (cs.takeWhile isClassChar).isEmpty then none
  else some (cs.takeWhile isClassChar, cs.dropWhile isClassChar)

/-- Attempt to match `TOP:([-0-9.]+),VAL:([-0-9.]+),INT:([-0-9.]+)` at the
start of `cs`.  Because `,` is not in the character class, the regex engine's
greedy matching with backtracking is equivalent to taking the maximal class
run at each group and then requiring the literal separator. -/
def matchAt (cs : List Char) : Option (List Char × List Char × List Char) :=
  match afterLit "TOP:" cs with
  | none => none
  | some rest0 =>
    match grabRun rest0 with
    | none => none
    | some (g1, rest1) =>
      match afterLit ",VAL:" rest1 with
      | none => none
      | some rest2 =>
        match grabRun rest2 with
        | none => none
        | some (g2, rest3) =>
          match afterLit ",INT:" rest3 with
          | none => none
          | some rest4 =>
            match grabRun rest4 with
            | none => none
            | some (g3, _) => some (g1, g2, g3)

/-- `line.match(/TOP:([-0-9.]+),VAL:([-0-9.]+),INT:([-0-9.]+)/)`: try each
start position left to right. -/
def regexSearch : List Char → Option (List Char × List Char × List Char)
  | [] => none
  | c :: rest =>
    match matchAt (c :: rest) with
    | some r => some r
    | none => regexSearch rest

/-- A nonempty string over the regex's character class. -/
def ClassString (g : List Char) : Prop := g ≠ [] ∧ ∀ c ∈ g, isClassChar c = true

/-- Declarative reading of "the line matches the regular expression for the
form `TOP:<float>,VAL:<float>,INT:<float>`": somewhere in the line the three
literals appear with nonempty class runs between them. -/
def MatchesTVI (cs : List Char) : Prop :=
  ∃ pre g1 g2 g3 suf,
    cs = pre ++ ("TOP:".toList ++ (g1 ++ (",VAL:".toList ++ (g2
           ++ (",INT:".toList ++ (g3 ++ suf))))))
    ∧ ClassString g1 ∧ ClassString g2 ∧ ClassString g3

/-- Numeric value of a digit run. -/
def digitsVal (ds : List Char) : ℕ :=
  ds.foldl (fun n c => 10 * n + (c.toNat - '0'.toNat)) 0

/-- JavaScript `parseFloat`, specialised to inputs over `[-0-9.]` (no
exponents can occur in a matched group): optional sign, then digits, then
optionally a dot and more digits, stopping at the first character that does
not fit; `none` models `NaN`.  Decimal values are represented exactly as
rationals. -/
def parseFloatJS (s : String) : Option ℚ :=
  let signed : Bool × List Char :=
    match s.toList with
    | '-' :: rest => (true, rest)
    | '+' :: rest => (false, rest)
    | cs => (false, cs)
  let intPart := signed.2.takeWhile Char.isDigit
  let rest1 := signed.2.dropWhile Char.isDigit
  let fracPart :=
    match rest1 with
    | '.' :: r => r.takeWhile Char.isDigit
    | _ => []
  if intPart.isEmpty && fracPart.isEmpty then none
  else
    let mag : ℚ := (digitsVal intPart : ℚ) + (digitsVal fracPart : ℚ) / ((10 : ℚ) ^ fracPart.length)
    some (if signed.1 then -mag else mag)

/-- The mutable `hardwareBufferRef.current` record (`Option ℚ` because a
parsed group such as `"-"` yields `NaN`). -/
structure HardwareBuffer where
  topPoint : Option ℚ
  interpolated : Option ℚ
  baseline : Option ℚ
  value : Option ℚ
  raw : Option ℚ
deriving DecidableEq

/-- The serial-monitor display buffer kept to the last 8 lines. -/
def pushSerialLine (l : List String) (line : String) : List String :=
  let n := l ++ [line]
  if n.length > 8 then n.drop (n.length - 8) else n

/-- The state `parseSerialLine` touches (the `rxActive` blink is a pair of
timers with no retained value and is not modelled). -/
structure MonitorState where
  rawSerialBuffer : List String
  hardware : HardwareBuffer
deriving DecidableEq

/-- `parseSerialLine`: always record the line in the serial-monitor display;
update the hardware buffer fields only when the regex matches.  Total —
malformed lines raise no error. -/
def parseSerialLine (st : MonitorState) (line : String) : MonitorState :=
  let st := { st with rawSerialBuffer := pushSerialLine st.rawSerialBuffer line }
  match regexSearch line.toList with
  | some (g1, _g2, g3) =>
    let rawInt := parseFloatJS (String.mk g3)
    { st with hardware :=
        { st.hardware with
            topPoint := parseFloatJS (String.mk g1)
            interpolated := rawInt
            raw := rawInt } }
  | none => st

end DeviceMonitor

namespace AppMain

/-! ## `src/App.tsx`: transcript export and the `processUpload` wizard -/

/-- One point of a session transcript (`PlantDataPoint`). -/
structure PlantDataPoint where
  timestamp : Nat
  capacitance : ℚ
  sentiment : String
  userMessage : Option String
  plantResponse : Option String

/-- The body line a point contributes, if any:
`if (d.userMessage) return USER line; if (d.plantResponse) return PLANT line; return null;`
(`fmtTime` stands for `new Date(t).toLocaleTimeString()`). -/
def lineOf (fmtTime : Nat → String) (d : PlantDataPoint) : Option String :=
  if jsTruthy d.userMessage then
    some ("[" ++ fmtTime d.timestamp ++ "] USER: " ++ d.userMessage.getD "")
  else if jsTruthy d.plantResponse then
    some ("[" ++ fmtTime d.timestamp ++ "] PLANT: " ++ d.plantResponse.getD "")
  else none

/-- `currentSessionData.map(...).filter(Boolean)`. -/
def scriptLines (fmtTime : Nat → String) (pts : List PlantDataPoint) : List String :=
  (pts.map (lineOf fmtTime)).filterMap id

/-- `...join('\n\n')`. -/
def scriptBody (fmtTime : Nat → String) (pts : List PlantDataPoint) : String :=
  String.intercalate "\n\n" (scriptLines fmtTime pts)

/-- The fixed transcript header. -/
def scriptHeader (dateIso network : String) (wallet : Option String) : String :=
  "PLANTBUDDY SESSION TRANSCRIPT\nDATE: " ++ dateIso ++ "\nNETWORK: " ++ network
  ++ "\nCREATOR: " ++ (jsOr wallet (some "Anonymous")).getD ""
  ++ "\n-----------------------------------\n\n"

/-- `scriptHeader + (scriptBody || "[No verbal interaction recorded]")`. -/
def fullScript (fmtTime : Nat → String) (dateIso network : String)
    (wallet : Option String) (pts : List PlantDataPoint) : String :=
  scriptHeader dateIso network wallet ++
    (if scriptBody fmtTime pts = "" then "[No verbal interaction recorded]"
     else scriptBody fmtTime pts)

/-- The upload wizard's step state. -/
inductive UploadStep where
  | IDLE
  | ANALYZING
  | ENCRYPTING
  | UPLOADING
  | SUCCESS
deriving DecidableEq, Repr

/-- Observable run of `processUpload`: the successive `setUploadStep` calls,
the final step, the `alert` shown (if any), the script stored in
`blobScript`, and the blob id on success. -/
structure ProcessUploadRun where
  stepTrace : List UploadStep
  finalStep : UploadStep
  alert : Option String
  script : String
  uploadedBlobId : Option String
deriving DecidableEq, Repr

/-- `processUpload`, abstracted over its collaborators: the AI analysis
(which never rejects, see `Gemini.analyzeDatasetValue`) and the result of
`uploadToWalrus` (`Except.error msg` = rejection with that message).  For an
empty transcript the summary computation indexes an empty array and throws a
browser `TypeError` whose text we do not model, so that case is `none`; the
upload button is only reachable with a nonempty session. -/
def processUpload (fmtTime : Nat → String) (dateIso network : String)
    (wallet : Option String) (pts : List PlantDataPoint)
    (_analysis : Gemini.Analysis) (uploadResult : Except String String) :
    Option ProcessUploadRun :=
  let script := fullScript fmtTime dateIso network wallet pts
  match pts with
  | [] => none
  | _ :: _ =>
    match uploadResult with
    | .error msg =>
        some { stepTrace := [.ANALYZING, .ENCRYPTING, .UPLOADING, .IDLE]
               finalStep := .IDLE
               alert := some ("Upload Failed: " ++ (jsOr (some msg) (some "Unknown Error")).getD "")
               script := script
               uploadedBlobId := none }
    | .ok blobId =>
        some { stepTrace := [.ANALYZING, .ENCRYPTING, .UPLOADING, .SUCCESS]
               finalStep := .SUCCESS
               alert := none
               script := script
               uploadedBlobId := some blobId }

end AppMain

namespace SuiWallet

/-! ## `src/services/suiWalletService.ts` (second revision, the one the claims
cite): wallet detection, connection, disconnect

The ambient browser globals are data: an `Env` describes what
`window.suiWallet` / `window.suiet` / `window.sui`, `navigator.getWallets`
and the remaining wallet-like `window` keys look like, including what each of
their asynchronous methods resolves or rejects with. -/

/-- A `window.suiWallet`-shaped (typed legacy) provider.  `getAccounts` is
called twice on the legacy path — once speculatively, once after a granted
permission request — and the two calls may behave differently. -/
structure LegacyProvider where
  getAccounts1 : Except String (List String)
  requestPermissionsResult : Except String Bool
  getAccounts2 : Except String (List String)
  disconnectResult : Except String Unit

/-- What a duck-typed `connect()` resolves with: the code reads
`res?.data?.[0]` (an address string) and `res?.accounts?.[0]?.address`. -/
structure ConnRes where
  data : List String
  accounts : List String

/-- An untyped wallet-like object (`window.suiet`, `window.sui`, or any other
wallet-like `window` key) whose method shapes are probed dynamically.  A
`has*` flag false means the method is absent, so calling it would throw a
`TypeError` (modelled as the probe failing). -/
structure GenericProvider where
  hasConnect : Bool
  connectResult : Except String ConnRes
  hasRequestPermissions : Bool
  requestPermissionsResult : Except String Bool
  hasGetAccounts : Bool
  getAccountsResult : Except String (List String)
  hasPermissionsFn : Bool
  hasDisconnect : Bool
  disconnectResult : Except String Unit

/-- A wallet reported by `navigator.getWallets()`. -/
structure StdWallet where
  name : String
  chains : List String
  hasConnectFeature : Bool                     -- `features['standard:connect']`
  connectAccounts : Except String (List String)  -- the addresses `connect()` resolves with
  hasSignAndExecute : Bool                     -- `features['sui:signAndExecuteTransactionBlock']`

/-- The ambient global state at one instant.  `navWallets = none` models
`navigator.getWallets` being undefined; `some (Except.error e)` models the
call throwing.  `extraKeys` are the `window` keys other than the three named
globals (those are skipped by the identity check in the dynamic scan). -/
structure Env where
  suiWallet : Option LegacyProvider
  suiet : Option GenericProvider
  sui : Option GenericProvider
  navWallets : Option (Except String (List StdWallet))
  extraKeys : List (String × GenericProvider)

/-- The environment with nothing injected. -/
def emptyEnv : Env :=
  { suiWallet := none, suiet := none, sui := none, navWallets := none, extraKeys := [] }

/-- The key filter of the dynamic scan:
`key.toLowerCase().includes('sui') || ...includes('wallet') || ...includes('suiwallet')`. -/
def isWalletKey (k : String) : Bool :=
  containsSub (lowerStr k) "sui" || containsSub (lowerStr k) "wallet" ||
  containsSub (lowerStr k) "suiwallet"

/-- `checkSuiWalletInstalled` (non-blocking presence probe): legacy globals,
then a nonempty `navigator.getWallets()` (errors silently swallowed), then
any wallet-like key exposing one of the probed method shapes. -/
def checkSuiWalletInstalled (env : Env) : Bool :=
  env.suiWallet.isSome || env.suiet.isSome || env.sui.isSome ||
  (match env.navWallets with
   | some (Except.ok ws) => !ws.isEmpty
   | _ => false) ||
  (env.extraKeys.filter (fun p => isWalletKey p.1)).any
    (fun p => p.2.hasRequestPermissions || p.2.hasConnect ||
              p.2.hasGetAccounts || p.2.hasPermissionsFn)

/-- `waitForWallet`'s polling loop: `envAt tick` is the global state after
`tick` × 100 ms.  Returns whether a wallet was seen and the tick at which the
loop exited; each failed probe is followed by a 100 ms sleep. -/
def waitForWalletAux (envAt : Nat → Env) : Nat → Nat → Bool × Nat
  | 0, tick => (false, tick)
  | retries + 1, tick =>
    if checkSuiWalletInstalled (envAt tick) then (true, tick)
    else waitForWalletAux envAt retries (tick + 1)

/-- `waitForWallet()`: `let retries = 100;` with a 100 ms delay per retry
(a 10-second window). -/
def waitForWallet (envAt : Nat → Env) : Bool × Nat := waitForWalletAux envAt 100 0

/-- The module-level `activeWalletAdapter` reference, by provenance. -/
inductive Adapter where
  | standardWrapper (hasSign : Bool)  -- the closure wrapping a standard wallet
  | legacySuiWallet
  | suietAdapter
  | suiAdapter
  | dynamic (key : String)
deriving DecidableEq, Repr

/-- Step 2: standard connection via `navigator.getWallets()`.  `none` means
"fall through to the next strategy" (every throw on this path is caught). -/
def stepStandard (env : Env) : Option (String × Adapter) :=
  match env.navWallets with
  | none => none
  | some (Except.error _) => none
  | some (Except.ok wallets) =>
    if wallets.isEmpty then none
    else
      match wallets.find? (·.hasConnectFeature) with
      | none => none
      | some w =>
        match w.connectAccounts with
        | .error _ => none
        | .ok accts =>
          match accts.head? with
          | some a => some (a, .standardWrapper w.hasSignAndExecute)
          | none => none

/-- The permission phase of the legacy path (reached when the speculative
`getAccounts` returned no accounts or threw). -/
def legacyPermPhase (w : LegacyProvider) : Option (String × Adapter) :=
  match w.requestPermissionsResult with
  | .error _ => none
  | .ok false => none
  | .ok true =>
    match w.getAccounts2 with
    | .error _ => none
    | .ok accts => accts.head?.map (fun a => (a, .legacySuiWallet))

/-- Step 3: legacy `window.suiWallet`. -/
def stepLegacy (env : Env) : Option (String × Adapter) :=
  match env.suiWallet with
  | none => none
  | some w =>
    match w.getAccounts1 with
    | .ok accts =>
      match accts.head? with
      | some a => some (a, .legacySuiWallet)
      | none => legacyPermPhase w
    | .error _ => legacyPermPhase w

/-- Step 4: `window.suiet` (`if (res?.data?.[0])` — a falsy first element
falls through). -/
def stepSuiet (env : Env) : Option (String × Adapter) :=
  match env.suiet with
  | none => none
  | some s =>
    match s.connectResult with
    | .error _ => none
    | .ok r =>
      match r.data.head? with
      | some a => if a ≠ "" then some (a, .suietAdapter) else none
      | none => none

/-- Shared pattern: `if (res?.data?.[0]) ... else if (res?.accounts?.[0]?.address) ...`. -/
def connResFirst (r : ConnRes) (ad : Adapter) : Option (String × Adapter) :=
  match r.data.head? with
  | some a =>
      if a ≠ "" then some (a, ad)
      else
        match r.accounts.head? with
        | some b => if b ≠ "" then some (b, ad) else none
        | none => none
  | none =>
      match r.accounts.head? with
      | some b => if b ≠ "" then some (b, ad) else none
      | none => none

/-- Step 5: generic `window.sui`: a duck-typed `connect`, else a
`requestPermissions`/`getAccounts` pair. -/
def stepSui (env : Env) : Option (String × Adapter) :=
  match env.sui with
  | none => none
  | some g =>
    if g.hasConnect then
      match g.connectResult with
      | .error _ => none
      | .ok r => connResFirst r .suiAdapter
    else if g.hasRequestPermissions then
      match g.requestPermissionsResult with
      | .error _ => none
      | .ok false => none
      | .ok true =>
        if g.hasGetAccounts then
          match g.getAccountsResult with
          | .error _ => none
          | .ok accts => accts.head?.map (fun a => (a, .suiAdapter))
        else none   -- `obj.getAccounts()` is not a function: TypeError, caught
    else none

/-- One candidate of the step-6 dynamic scan. -/
def tryDynObj (p : String × GenericProvider) : Option (String × Adapter) :=
  let o := p.2
  if o.hasRequestPermissions then
    match o.requestPermissionsResult with
    | .error _ => none
    | .ok false => none
    | .ok true =>
      if o.hasGetAccounts then
        match o.getAccountsResult with
        | .error _ => none
        | .ok accts => accts.head?.map (fun a => (a, .dynamic p.1))
      else none
  else if o.hasConnect then
    match o.connectResult with
    | .error _ => none
    | .ok r => connResFirst r (.dynamic p.1)
  else if o.hasGetAccounts then
    match o.getAccountsResult with
    | .error _ => none
    | .ok accts => accts.head?.map (fun a => (a, .dynamic p.1))
  else none

/-- Step 6: scan the remaining wallet-like `window` keys in order. -/
def stepDynamic (env : Env) : Option (String × Adapter) :=
  (env.extraKeys.filter (fun p => isWalletKey p.1)).findSome? tryDynObj

/-- The message of the final `throw`. -/
def notFoundMsg : String :=
  "No compatible Sui Wallet found. Please install the Sui Wallet extension."

/-- The connection cascade of `connectSuiWallet` (everything after the
injection wait): first strategy to produce an address wins and installs the
corresponding `activeWalletAdapter`; if all fall through, the not-found error
is thrown (and rethrown by the outer catch). -/
def connectCascade (env : Env) : Except String (String × Adapter) :=
  match stepStandard env with
  | some r => .ok r
  | none =>
    match stepLegacy env with
    | some r => .ok r
    | none =>
      match stepSuiet env with
      | some r => .ok r
      | none =>
        match stepSui env with
        | some r => .ok r
        | none =>
          match stepDynamic env with
          | some r => .ok r
          | none => .error notFoundMsg

/-- `connectSuiWallet`: wait for injection (the timeout only logs a warning
and the connection is attempted anyway), then run the cascade against the
state observed at the exit tick.  The second component is the elapsed wait in
milliseconds (the cascade's own awaits are not on the 100 ms clock). -/
def connectSuiWallet (envAt : Nat → Env) : Except String (String × Adapter) × Nat :=
  let fr := waitForWallet envAt
  (connectCascade (envAt fr.2), 100 * fr.2)

/-- The module state relevant to disconnect. -/
structure WalletState where
  activeWalletAdapter : Option Adapter
deriving DecidableEq, Repr

/-- The body of `disconnectSuiWallet`'s `try` block: legacy `suiWallet`
disconnect, else `suiet` disconnect (which may not exist). -/
def disconnectBody (env : Env) : Except String Unit :=
  match env.suiWallet with
  | some w => w.disconnectResult
  | none =>
    match env.suiet with
    | some s => if s.hasDisconnect then s.disconnectResult else .error "TypeError"
    | none => .ok ()

/-- `disconnectSuiWallet`: clear `activeWalletAdapter` first, then attempt a
best-effort provider disconnect, swallowing (only logging) any failure.  The
returned `Except` is the promise's outcome: always `ok`. -/
def disconnectSuiWallet (env : Env) (st : WalletState) : WalletState × Except String Unit :=
  let st' : WalletState := { st with activeWalletAdapter := none }
  match disconnectBody env with
  | .ok _ => (st', .ok ())
  | .error _ => (st', .ok ())   -- `catch (e) { console.warn(...) }`

/-- The injection scenario of the spec's testable property: a fixed provider
environment `full` that appears at tick `t` (or never) and stays. -/
def envAt (full : Env) (injectedAt : Option Nat) (tick : Nat) : Env :=
  match injectedAt with
  | some t => if t ≤ tick then full else emptyEnv
  | none => emptyEnv

end SuiWallet

/-! # Theorems -/

namespace Gemini

theorem normMsg_valid {m : ChatMsg} (h : m.role = "user" ∨ m.role = "model") :
    normMsg m = m := by
  rcases m with ⟨r, t⟩
  rcases h with h | h <;> simp_all [normMsg, normalizeRole]

theorem map_normMsg_valid {l : List ChatMsg} (h : ValidRoles l) :
    l.map normMsg = l := by
  induction l with
  | nil => rfl
  | cons m l ih =>
      have hm := h m (List.mem_cons_self ..)
      have hl : ValidRoles l := fun x hx => h x (List.mem_cons_of_mem _ hx)
      simp [normMsg_valid hm, ih hl]

/-- Folding `mergeStep` over a history whose (normalized) head differs from
the accumulator's last turn just appends the normalized turns. -/
theorem foldl_mergeStep_append (h : List ChatMsg) :
    ∀ (l : List ChatMsg) (t : ChatMsg),
      List.Chain' (fun a b => a.role ≠ b.role) (t :: h.map normMsg) →
      List.foldl mergeStep (l ++ [t]) h = l ++ t :: h.map normMsg := by
  induction h with
  | nil => intro l t _; simp
  | cons m h ih =>
      intro l t hch
      rw [List.map_cons, List.chain'_cons] at hch
      have hne : ¬ t.role = normalizeRole m.role := hch.1
      have hstep : mergeStep (l ++ [t]) m = (l ++ [t]) ++ [normMsg m] := by
        simp [mergeStep, List.getLast?_concat, hne, normMsg]
      rw [List.foldl_cons, hstep, ih (l ++ [t]) (normMsg m) hch.2]
      simp

/-- Alternating, valid-role histories are left unchanged by merging. -/
theorem processHistory_alternating {h : List ChatMsg}
    (hv : ValidRoles h) (ha : Alternating h) : processHistory h = h := by
  cases h with
  | nil => rfl
  | cons m h' =>
      have hv' : ValidRoles (m :: h') := hv
      have hmap : (m :: h').map normMsg = m :: h' := map_normMsg_valid hv'
      have hch : List.Chain' (fun a b => a.role ≠ b.role)
          (normMsg m :: h'.map normMsg) := by
        have : (m :: h').map normMsg = normMsg m :: h'.map normMsg := by simp
        rw [← this, hmap]; exact ha
      have hstep : mergeStep [] m = [] ++ [normMsg m] := by
        simp [mergeStep, normMsg]
      have := foldl_mergeStep_append h' [] (normMsg m) hch
      have hmap' : h'.map normMsg = h' := by
        simpa [normMsg_valid (hv m (List.mem_cons_self ..))] using
          congrArg List.tail hmap
      calc processHistory (m :: h')
          = List.foldl mergeStep ([] ++ [normMsg m]) h' := by
            simp [processHistory, hstep]
        _ = [] ++ normMsg m :: h'.map normMsg := this
        _ = m :: h' := by
            simp [normMsg_valid (hv m (List.mem_cons_self ..)), hmap']

/-- A history with exactly one immediate role repeat (at the `a, b` junction)
merges that pair into one turn, texts joined by `"\n"`. -/
theorem processHistory_one_repeat {p s : List ChatMsg} {a b : ChatMsg}
    (hv : ValidRoles (p ++ a :: b :: s))
    (hpa : Alternating (p ++ [a])) (hbs : Alternating (b :: s))
    (hab : a.role = b.role) :
    processHistory (p ++ a :: b :: s)
      = p ++ ⟨a.role, a.text ++ "\n" ++ b.text⟩ :: s := by
  have hvpa : ValidRoles (p ++ [a]) := by
    intro m hm
    rcases List.mem_append.mp hm with hm | hm
    · exact hv m (List.mem_append.mpr (Or.inl hm))
    · rcases List.mem_singleton.mp hm with rfl
      exact hv m (List.mem_append.mpr (Or.inr (List.mem_cons_self ..)))
  have hvb : b.role = "user" ∨ b.role = "model" :=
    hv b (List.mem_append.mpr (Or.inr (List.mem_cons_of_mem _ (List.mem_cons_self ..))))
  have hvs : ValidRoles s := fun m hm =>
    hv m (List.mem_append.mpr (Or.inr (List.mem_cons_of_mem _ (List.mem_cons_of_mem _ hm))))
  -- split the fold at the `p ++ [a]` prefix
  have hsplit : p ++ a :: b :: s = (p ++ [a]) ++ b :: s := by simp
  have hfold1 : List.foldl mergeStep [] (p ++ [a]) = p ++ [a] := by
    have := processHistory_alternating hvpa hpa
    simpa [processHistory] using this
  -- merging `b` into the accumulator `p ++ [a]` joins it to `a`
  have hrole : a.role = normalizeRole b.role := by
    rw [hab]; rcases hvb with h | h <;> simp [normalizeRole, h]
  have hstepb : mergeStep (p ++ [a]) b
      = p ++ [⟨a.role, a.text ++ "\n" ++ b.text⟩] := by
    simp [mergeStep, List.getLast?_concat, ← hrole]
  -- the remaining suffix `s` alternates against the merged turn
  have hchain : List.Chain' (fun x y => x.role ≠ y.role)
      ((⟨a.role, a.text ++ "\n" ++ b.text⟩ : ChatMsg) :: s.map normMsg) := by
    rw [map_normMsg_valid hvs]
    cases s with
    | nil => simp
    | cons c s' =>
        rw [List.chain'_cons]
        have hbs' : List.Chain' (fun x y => x.role ≠ y.role) (b :: c :: s') := hbs
        rw [List.chain'_cons] at hbs'
        exact ⟨by simpa [hab] using hbs'.1, hbs'.2⟩
  calc processHistory (p ++ a :: b :: s)
      = List.foldl mergeStep (List.foldl mergeStep [] (p ++ [a])) (b :: s) := by
        rw [processHistory, hsplit, List.foldl_append]
    _ = List.foldl mergeStep (p ++ [⟨a.role, a.text ++ "\n" ++ b.text⟩]) s := by
        rw [hfold1, List.foldl_cons, hstepb]
    _ = p ++ ⟨a.role, a.text ++ "\n" ++ b.text⟩ :: s.map normMsg :=
        foldl_mergeStep_append s p _ hchain
    _ = p ++ ⟨a.role, a.text ++ "\n" ++ b.text⟩ :: s := by
        rw [map_normMsg_valid hvs]

end Gemini

/-- **C3.** The history-merging step of `generatePlantResponse` leaves every
strictly alternating user/model history unchanged; and a history whose single
immediate same-role repeat is the adjacent pair `a, b` is merged into one turn
whose text is the two texts joined by a newline, so the merged history has
exactly one fewer turn. -/
theorem C3_history_merging :
    (∀ h : List Gemini.ChatMsg, Gemini.ValidRoles h → Gemini.Alternating h →
        Gemini.processHistory h = h) ∧
    (∀ (p s : List Gemini.ChatMsg) (a b : Gemini.ChatMsg),
        Gemini.ValidRoles (p ++ a :: b :: s) →
        Gemini.Alternating (p ++ [a]) → Gemini.Alternating (b :: s) →
        a.role = b.role →
        Gemini.processHistory (p ++ a :: b :: s)
            = p ++ ⟨a.role, a.text ++ "\n" ++ b.text⟩ :: s ∧
        (Gemini.processHistory (p ++ a :: b :: s)).length
            = (p ++ a :: b :: s).length - 1) := by
  refine ⟨fun h hv ha => Gemini.processHistory_alternating hv ha,
          fun p s a b hv hpa hbs hab => ?_⟩
  have h1 := Gemini.processHistory_one_repeat hv hpa hbs hab
  refine ⟨h1, ?_⟩
  rw [h1]; simp

/-- Witness for C3 at concrete histories: an alternating two-turn history is
unchanged, and a history `user, user, model` merges its first two turns. -/
theorem C3_history_merging_witness :
    Gemini.processHistory [⟨"user", "hi"⟩, ⟨"model", "hello"⟩]
        = [⟨"user", "hi"⟩, ⟨"model", "hello"⟩] ∧
    Gemini.processHistory [⟨"user", "a"⟩, ⟨"user", "b"⟩, ⟨"model", "c"⟩]
        = [⟨"user", "a" ++ "\n" ++ "b"⟩, ⟨"model", "c"⟩] := by
  constructor
  · exact C3_history_merging.1 [⟨"user", "hi"⟩, ⟨"model", "hello"⟩]
      (by intro m hm; fin_cases hm <;> simp)
      (by constructor <;> simp)
  · have := (C3_history_merging.2 [] [⟨"model", "c"⟩] ⟨"user", "a"⟩ ⟨"user", "b"⟩
      (by intro m hm; fin_cases hm <;> simp)
      (by simp [Gemini.Alternating])
      (by constructor <;> simp) rfl).1
    simpa using this

/-! ## Claim C10 — `analyzeDatasetValue` never rejects -/

/-- `containsSub` is stable under prepending text. -/
theorem listContains_append_right (pat r : List Char) (h : listContains pat r = true) :
    ∀ l : List Char, listContains pat (l ++ r) = true := by
  intro l
  induction l with
  | nil => simpa using h
  | cons c l ih => simp [listContains, ih]

set_option maxRecDepth 40000 in
/-- **C10.** `analyzeDatasetValue` never rejects: on a missing API key, a
rejected remote call, an absent/empty response text, or an unparsable
response text it resolves with the fixed fallback record, whose suggested
price `50` lies outside the `100`–`1000` range the prompt requests. -/
theorem C10_analyze_fallback :
    (∀ res parse, Gemini.analyzeDatasetValue none res parse = Gemini.fallbackAnalysis) ∧
    (∀ key parse e,
        Gemini.analyzeDatasetValue (some key) (.error e) parse = Gemini.fallbackAnalysis) ∧
    (∀ key parse t, jsTruthy t = false →
        Gemini.analyzeDatasetValue (some key) (.ok t) parse = Gemini.fallbackAnalysis) ∧
    (∀ key parse t e, parse (t.getD "") = .error e →
        Gemini.analyzeDatasetValue (some key) (.ok t) parse = Gemini.fallbackAnalysis) ∧
    Gemini.fallbackAnalysis
      = { title := "Raw Bio-Data Upload"
          description := "Unprocessed capacitance and audio logs from a PlantBuddy device."
          priceSuggestion := 50 } ∧
    ¬ (100 ≤ Gemini.fallbackAnalysis.priceSuggestion ∧
        Gemini.fallbackAnalysis.priceSuggestion ≤ 1000) ∧
    (∀ summary, containsSub (Gemini.analysisPrompt summary)
        "number (between 100 and 1000)" = true) := by
  refine ⟨fun res parse => rfl, fun key parse e => rfl,
          fun key parse t h => by simp [Gemini.analyzeDatasetValue, h],
          fun key parse t e h => ?_, rfl,
          by rw [show Gemini.fallbackAnalysis.priceSuggestion = 50 from rfl]; omega,
          fun summary => ?_⟩
  · cases ht : jsTruthy t
    · simp [Gemini.analyzeDatasetValue, ht]
    · simp [Gemini.analyzeDatasetValue, ht, h]
  · show listContains _ _ = true
    exact listContains_append_right _ _ (by decide) _

/-- Witness for C10 at concrete failing inputs. -/
theorem C10_analyze_fallback_witness :
    Gemini.analyzeDatasetValue (some "k") (.ok (some ""))
        (fun _ => .ok Gemini.fallbackAnalysis) = Gemini.fallbackAnalysis ∧
    Gemini.analyzeDatasetValue (some "k") (.ok (some "not json"))
        (fun _ => .error "Unexpected token") = Gemini.fallbackAnalysis :=
  ⟨C10_analyze_fallback.2.2.1 "k" _ (some "") (by decide),
   C10_analyze_fallback.2.2.2.1 "k" _ (some "not json") "Unexpected token" rfl⟩

/-! ## Claim C4 — `uploadToWalrus` blob-id extraction -/

/-- **C4.** Uploading `"hello"` against a publisher answering
`{"newlyCreated":{"blobObject":{"blobId":"abc123"}}}` yields blob id
`"abc123"` and URL `<aggregator-base>/v1/abc123`; in general the id comes
from the nested blob object of a newly-created response, else directly from
an already-certified response, and a success response with neither is an
error. -/
theorem C4_uploadToWalrus_extraction :
    WalrusService.uploadToWalrus "hello" .TESTNET
        (.resp true 200 "" (.ok ⟨some ⟨"abc123"⟩, none⟩))
      = .ok ⟨"abc123", "https://aggregator.walrus-testnet.walrus.space/v1/abc123"⟩ ∧
    (∀ content network status text nc acert,
        WalrusService.uploadToWalrus content network
            (.resp true status text (.ok ⟨some nc, acert⟩))
          = .ok ⟨nc.blobObject_blobId,
                 WalrusService.aggregatorBase network ++ "/v1/" ++ nc.blobObject_blobId⟩) ∧
    (∀ content network status text ac,
        WalrusService.uploadToWalrus content network
            (.resp true status text (.ok ⟨none, some ac⟩))
          = .ok ⟨ac.blobId, WalrusService.aggregatorBase network ++ "/v1/" ++ ac.blobId⟩) ∧
    (∀ content network status text,
        WalrusService.uploadToWalrus content network
            (.resp true status text (.ok ⟨none, none⟩))
          = .error "Unexpected Walrus response format") := by
  refine ⟨rfl, fun _ _ _ _ _ _ => rfl, fun _ _ _ _ _ => rfl, fun _ _ _ _ => rfl⟩

/-! ## Claim C5 — disconnect without a prior connect -/

/-- **C5.** `disconnectSuiWallet` called with no prior successful connect
never throws — any failure of an underlying wallet's `disconnect` is
swallowed — and afterwards the module holds no active adapter. -/
theorem C5_disconnect_no_throw (env : SuiWallet.Env) (st : SuiWallet.WalletState)
    (h : st.activeWalletAdapter = none) :
    (SuiWallet.disconnectSuiWallet env st).2 = .ok () ∧
    (SuiWallet.disconnectSuiWallet env st).1.activeWalletAdapter = none := by
  cases hb : SuiWallet.disconnectBody env <;>
    simp [SuiWallet.disconnectSuiWallet, hb]

/-- Witness for C5: no provider present, fresh state. -/
theorem C5_disconnect_no_throw_witness :
    (SuiWallet.disconnectSuiWallet SuiWallet.emptyEnv ⟨none⟩).2 = .ok () ∧
    (SuiWallet.disconnectSuiWallet SuiWallet.emptyEnv ⟨none⟩).1.activeWalletAdapter = none :=
  C5_disconnect_no_throw SuiWallet.emptyEnv ⟨none⟩ rfl

/-! ## Claim C8 — transcript body lines -/

/-- **C8.** The exported body has exactly one line per point carrying a user
or companion utterance — a timestamped `USER:` or `PLANT:` line — and a point
carrying neither contributes no line. -/
theorem C8_transcript_lines (fmtTime : Nat → String)
    (pts : List AppMain.PlantDataPoint) (hne : pts ≠ []) :
    (AppMain.scriptLines fmtTime pts).length
      = (pts.filter
          (fun d => jsTruthy d.userMessage || jsTruthy d.plantResponse)).length ∧
    (∀ d ∈ pts, jsTruthy d.userMessage = false → jsTruthy d.plantResponse = false →
        AppMain.lineOf fmtTime d = none) ∧
    (∀ d ∈ pts, jsTruthy d.userMessage = true →
        AppMain.lineOf fmtTime d
          = some ("[" ++ fmtTime d.timestamp ++ "] USER: " ++ d.userMessage.getD "")) ∧
    (∀ d ∈ pts, jsTruthy d.userMessage = false → jsTruthy d.plantResponse = true →
        AppMain.lineOf fmtTime d
          = some ("[" ++ fmtTime d.timestamp ++ "] PLANT: " ++ d.plantResponse.getD "")) ∧
    AppMain.scriptBody fmtTime pts
      = String.intercalate "\n\n" (AppMain.scriptLines fmtTime pts) := by
  refine ⟨?_, ?_, ?_, ?_, rfl⟩
  · clear hne
    induction pts with
    | nil => rfl
    | cons d rest ih =>
        by_cases hu : jsTruthy d.userMessage = true
        · simp [AppMain.scriptLines, AppMain.lineOf, hu, List.filter_cons] at ih ⊢
          omega
        · replace hu := Bool.not_eq_true _ |>.mp hu
          by_cases hp : jsTruthy d.plantResponse = true
          · simp [AppMain.scriptLines, AppMain.lineOf, hu, hp, List.filter_cons] at ih ⊢
            omega
          · replace hp := Bool.not_eq_true _ |>.mp hp
            simp [AppMain.scriptLines, AppMain.lineOf, hu, hp, List.filter_cons] at ih ⊢
            omega
  · intro d _ hu hp; simp [AppMain.lineOf, hu, hp]
  · intro d _ hu; simp [AppMain.lineOf, hu]
  · intro d _ hu hp; simp [AppMain.lineOf, hu, hp]

/-- Witness for C8 at a concrete three-point transcript (user line, plant
line, silent touch point). -/
theorem C8_transcript_lines_witness :
    (AppMain.scriptLines (fun _ => "t")
        [⟨0, 0, "User Input", some "hi", none⟩,
         ⟨1, 0, "Plant Response", none, some "hello friend"⟩,
         ⟨2, 5, "Touch", none, none⟩]).length
      = ([⟨0, 0, "User Input", some "hi", none⟩,
          ⟨1, 0, "Plant Response", none, some "hello friend"⟩,
          ⟨2, 5, "Touch", none, none⟩].filter
            (fun d : AppMain.PlantDataPoint =>
              jsTruthy d.userMessage || jsTruthy d.plantResponse)).length :=
  (C8_transcript_lines (fun _ => "t") _ (by simp)).1

/-! ## Claim C6 — single-endpoint failures propagate and reset UI state -/

/-- The trace component of `generatePlantResponse` is the retry loop's result. -/
theorem generatePlantResponse_snd (outcomes : Nat → Gemini.GenOutcome) :
    (Gemini.generatePlantResponse outcomes).2
      = Gemini.retryLoopAux outcomes (Gemini.MAX_RETRIES + 1) 0 := by
  cases h : (Gemini.retryLoopAux outcomes (Gemini.MAX_RETRIES + 1) 0).reply <;>
    simp [Gemini.generatePlantResponse, h]

/-- The alert string built from `error.message || "Unknown Error"`. -/
theorem jsOr_unknown (msg : String) :
    (jsOr (some msg) (some "Unknown Error")).getD ""
      = (if msg = "" then "Unknown Error" else msg) := by
  by_cases h : msg = "" <;> simp [jsOr, jsTruthy, h]

/-- **C6.** A failing chosen upload attempt makes `processUpload` reset the
wizard to its initial `IDLE` step and present an alert carrying the error
message; a failing chat-completion call makes `generatePlantResponse` resolve
with a user-facing `"(System: ...)"` message that, for unclassified errors,
carries the error's own text — the failure is surfaced, not absorbed. -/
theorem C6_failure_propagation :
    (∀ fmtTime dateIso network wallet pts analysis msg run,
        AppMain.processUpload fmtTime dateIso network wallet pts analysis (.error msg)
          = some run →
        run.finalStep = .IDLE ∧
        run.stepTrace = [.ANALYZING, .ENCRYPTING, .UPLOADING, .IDLE] ∧
        run.alert
          = some ("Upload Failed: " ++ (if msg = "" then "Unknown Error" else msg))) ∧
    (∀ outcomes, (Gemini.generatePlantResponse outcomes).2.reply = none →
        (Gemini.generatePlantResponse outcomes).1
          = Gemini.finalizeError ((Gemini.generatePlantResponse outcomes).2.lastError)) ∧
    (∀ e, ∃ rest, Gemini.finalizeError e = "(System: " ++ rest) ∧
    (∀ e, Gemini.isAuthLike (lowerStr e) = false →
        (containsSub (lowerStr e) "quota" || containsSub (lowerStr e) "rate limit" ||
            containsSub (lowerStr e) "429") = false →
        (containsSub (lowerStr e) "network" || containsSub (lowerStr e) "fetch" ||
            containsSub (lowerStr e) "timeout") = false →
        Gemini.finalizeError e = "(System: " ++ e.take 100 ++ ")") := by
  refine ⟨?_, ?_, ?_, ?_⟩
  · intro fmtTime dateIso network wallet pts analysis msg run hrun
    cases pts with
    | nil => simp [AppMain.processUpload] at hrun
    | cons d rest =>
        simp [AppMain.processUpload] at hrun
        subst hrun
        exact ⟨rfl, rfl, by rw [jsOr_unknown]⟩
  · intro outcomes h
    rw [generatePlantResponse_snd] at h
    simp [Gemini.generatePlantResponse, h, generatePlantResponse_snd]
  · intro e
    unfold Gemini.finalizeError
    dsimp only
    split_ifs with h1 h2 h3
    · exact ⟨"Invalid or missing API Key. Please click the Lock icon in the top-right to enter your Google Gemini API Key.)", rfl⟩
    · exact ⟨"API quota exceeded. Please try again later or check your Gemini API quota.)", rfl⟩
    · exact ⟨"Network error. Please check your internet connection and try again.)", rfl⟩
    · exact ⟨e.take 100 ++ ")", by rw [← String.append_assoc]⟩
  · intro e h1 h2 h3
    simp only [Gemini.finalizeError, h1, h2, h3]
    simp

/-- Witness for C6: a concrete failed upload resets the wizard, and a
concrete exhausted chat call yields the error-carrying system message. -/
theorem C6_failure_propagation_witness :
    (∀ run,
        AppMain.processUpload (fun _ => "t") "d" "TESTNET" none
            [⟨0, 0, "User Input", some "hi", none⟩] Gemini.fallbackAnalysis
            (.error "CORS failure") = some run →
        run.finalStep = .IDLE ∧
        run.stepTrace = [.ANALYZING, .ENCRYPTING, .UPLOADING, .IDLE] ∧
        run.alert = some ("Upload Failed: "
          ++ (if "CORS failure" = "" then "Unknown Error" else "CORS failure"))) ∧
    Gemini.finalizeError "weird failure" = "(System: " ++ "weird failure".take 100 ++ ")" :=
  ⟨fun run h => C6_failure_propagation.1 (fun _ => "t") "d" "TESTNET" none
      [⟨0, 0, "User Input", some "hi", none⟩] Gemini.fallbackAnalysis "CORS failure" run h,
   C6_failure_propagation.2.2.2 "weird failure" (by decide) (by decide) (by decide)⟩

/-! ## Claim C2 — multi-endpoint upload fallback (corrected) -/

/-- **C2, counterexample.** With a single candidate endpoint failing with a
non-2xx response, the error finally thrown is the generic
`"Walrus upload failed"`, which does not mention the underlying error
(neither the status `500` nor the response body `"boom"`): the claim's
all-fail clause fails for non-2xx failures of the last endpoint. -/
theorem C2_counterexample :
    (WalrusUpload.uploadSessionViaWalrusSDK WalrusUpload.WALRUS_AGGREGATOR_TESTNET
        [.badStatus 500 "boom"]).1 = .error "Walrus upload failed" ∧
    containsSub "Walrus upload failed" "boom" = false ∧
    containsSub "Walrus upload failed" "500" = false := by
  exact ⟨rfl, by decide, by decide⟩

/-- Early failures (network error or non-2xx) are skipped: the loop on
`fails ++ l` behaves like the loop on `l` after `fails.length` extra
attempts. -/
theorem uploadLoop_skip_failures (agg : String) (fails l : List WalrusUpload.UploadAttempt)
    (hl : l ≠ [])
    (hf : ∀ o ∈ fails, (∃ m, o = .netErr m) ∨ ∃ s t, o = .badStatus s t) :
    WalrusUpload.uploadSessionViaWalrusSDK agg (fails ++ l)
      = ((WalrusUpload.uploadSessionViaWalrusSDK agg l).1,
         fails.length + (WalrusUpload.uploadSessionViaWalrusSDK agg l).2) := by
  induction fails with
  | nil => simp
  | cons o fails ih =>
      have hrest : ∀ x ∈ fails, (∃ m, x = .netErr m) ∨ ∃ s t, x = .badStatus s t :=
        fun x hx => hf x (List.mem_cons_of_mem _ hx)
      have hne : (fails ++ l).isEmpty = false := by
        rw [List.isEmpty_eq_false]
        intro hcon
        exact hl (List.append_eq_nil.mp hcon).2
      have hih := ih hrest
      rcases hf o (List.mem_cons_self ..) with ⟨m, rfl⟩ | ⟨s, t, rfl⟩
      · simp [WalrusUpload.uploadSessionViaWalrusSDK, hne, hih]
        omega
      · simp [WalrusUpload.uploadSessionViaWalrusSDK, hih]
        omega

/-- **C2, amended.** Attempts run strictly sequentially and stop at the first
success: when the first `N − 1` endpoints fail (network error or non-2xx) and
the `N`-th succeeds, the result carries the `N`-th endpoint's blob id after
exactly `N` attempts.  When all `N` fail, the final error mentions the last
underlying error *if the last attempt failed with a thrown error* (network
failure or an unparsable success body); if the last attempt failed with a
non-2xx response, the generic `"Walrus upload failed"` is thrown instead. -/
theorem C2_sequential_upload_amended :
    (∀ (agg : String) (fails : List WalrusUpload.UploadAttempt)
        (j : WalrusUpload.WalrusJson),
        (∀ o ∈ fails, (∃ m, o = .netErr m) ∨ ∃ s t, o = .badStatus s t) →
        jsTruthy (WalrusUpload.extractBlobId j) = true →
        WalrusUpload.uploadSessionViaWalrusSDK agg (fails ++ [.okResponse (.ok j)])
          = (.ok ⟨(WalrusUpload.extractBlobId j).getD "",
                  agg ++ "/v1/" ++ (WalrusUpload.extractBlobId j).getD ""⟩,
             fails.length + 1)) ∧
    (∀ (agg : String) (fails : List WalrusUpload.UploadAttempt) (msg : String),
        (∀ o ∈ fails, (∃ m, o = .netErr m) ∨ ∃ s t, o = .badStatus s t) →
        (WalrusUpload.uploadSessionViaWalrusSDK agg (fails ++ [.netErr msg])).1
          = .error ("All Walrus upload attempts failed. Last error: " ++ msg)) ∧
    (∀ (agg : String) (fails : List WalrusUpload.UploadAttempt) (msg : String),
        (∀ o ∈ fails, (∃ m, o = .netErr m) ∨ ∃ s t, o = .badStatus s t) →
        (WalrusUpload.uploadSessionViaWalrusSDK agg
            (fails ++ [.okResponse (.error msg)])).1
          = .error ("All Walrus upload attempts failed. Last error: " ++ msg)) ∧
    (∀ (agg : String) (fails : List WalrusUpload.UploadAttempt) (s : Nat) (t : String),
        (∀ o ∈ fails, (∃ m, o = .netErr m) ∨ ∃ s t, o = .badStatus s t) →
        (WalrusUpload.uploadSessionViaWalrusSDK agg (fails ++ [.badStatus s t])).1
          = .error "Walrus upload failed") ∧
    (∀ msg : String,
        containsSub ("All Walrus upload attempts failed. Last error: " ++ msg) msg
          = true) := by
  have hself : ∀ pat : List Char, listContains pat pat = true := by
    intro pat
    cases pat with
    | nil => rfl
    | cons c rest => simp [listContains, List.isPrefixOf_iff_prefix]
  refine ⟨?_, ?_, ?_, ?_, ?_⟩
  · intro agg fails j hf hj
    rw [uploadLoop_skip_failures agg fails _ (by simp) hf]
    simp [WalrusUpload.uploadSessionViaWalrusSDK, hj]
  · intro agg fails msg hf
    rw [uploadLoop_skip_failures agg fails _ (by simp) hf]
    rfl
  · intro agg fails msg hf
    rw [uploadLoop_skip_failures agg fails _ (by simp) hf]
    rfl
  · intro agg fails s t hf
    rw [uploadLoop_skip_failures agg fails _ (by simp) hf]
    rfl
  · intro msg
    show listContains _ _ = true
    exact listContains_append_right _ _ (hself _) _

/-- Witness for C2 at a concrete two-endpoint run (first endpoint down, second
succeeds) and a concrete all-fail run ending in a network error. -/
theorem C2_sequential_upload_amended_witness :
    WalrusUpload.uploadSessionViaWalrusSDK "https://agg"
        [.netErr "ERR_FAILED", .okResponse (.ok ⟨some "abc123", none, none, none⟩)]
      = (.ok ⟨"abc123", "https://agg" ++ "/v1/" ++ "abc123"⟩, 2) ∧
    (WalrusUpload.uploadSessionViaWalrusSDK "https://agg"
        [.badStatus 429 "slow down", .netErr "ERR_FAILED"]).1
      = .error ("All Walrus upload attempts failed. Last error: " ++ "ERR_FAILED") := by
  constructor
  · have := C2_sequential_upload_amended.1 "https://agg" [.netErr "ERR_FAILED"]
      ⟨some "abc123", none, none, none⟩
      (by rintro o ho; fin_cases ho; exact Or.inl ⟨"ERR_FAILED", rfl⟩) (by decide)
    simpa using this
  · exact C2_sequential_upload_amended.2.1 "https://agg" [.badStatus 429 "slow down"]
      "ERR_FAILED" (by rintro o ho; fin_cases ho; exact Or.inr ⟨429, "slow down", rfl⟩)

/-! ## Claim C7 — bounded linear-backoff retry, transient failures only -/

/-- The retry loop makes at most `fuel` calls beyond attempt index `attempt`. -/
theorem retryLoopAux_attempts_le (outcomes : Nat → Gemini.GenOutcome) :
    ∀ fuel attempt,
      (Gemini.retryLoopAux outcomes fuel attempt).attemptsUsed ≤ attempt + fuel := by
  intro fuel
  induction fuel with
  | zero => intro attempt; simp [Gemini.retryLoopAux]
  | succ fuel ih =>
      intro attempt
      unfold Gemini.retryLoopAux
      cases ho : outcomes attempt with
      | ok t => dsimp only; omega
      | err msg =>
          dsimp only
          split_ifs with h1 h2
          · dsimp only; omega
          · have := ih (attempt + 1)
            dsimp only
            omega
          · dsimp only; omega

/-- The backoff delays are consecutive multiples of 1000 ms starting at
`1000 * (attempt + 1)`, at most `MAX_RETRIES - attempt` of them. -/
theorem retryLoopAux_delays (outcomes : Nat → Gemini.GenOutcome) :
    ∀ fuel attempt, ∃ k,
      (Gemini.retryLoopAux outcomes fuel attempt).delaysMs
        = (List.range k).map (fun j => 1000 * (attempt + 1 + j)) ∧
      k ≤ Gemini.MAX_RETRIES - attempt := by
  intro fuel
  induction fuel with
  | zero => intro attempt; exact ⟨0, by simp [Gemini.retryLoopAux], by omega⟩
  | succ fuel ih =>
      intro attempt
      unfold Gemini.retryLoopAux
      cases ho : outcomes attempt with
      | ok t => exact ⟨0, by simp, by omega⟩
      | err msg =>
          dsimp only
          split_ifs with h1 h2
          · exact ⟨0, by simp, by omega⟩
          · obtain ⟨k, hk, hkle⟩ := ih (attempt + 1)
            rw [Bool.and_eq_true] at h2
            have hlt : attempt < Gemini.MAX_RETRIES := of_decide_eq_true h2.1
            refine ⟨k + 1, ?_, by omega⟩
            dsimp only
            rw [hk, List.range_succ_eq_map, List.map_cons, List.map_map]
            refine List.cons_eq_cons.mpr ⟨by norm_num, ?_⟩
            apply List.map_congr_left
            intro a _
            simp only [Function.comp_apply, Nat.succ_eq_add_one]
            omega
          · exact ⟨0, by simp, by omega⟩

/-- A `k+1`-th call happens only when the `k`-th call failed with a
transient-looking, non-auth-looking error. -/
theorem retryLoopAux_retried (outcomes : Nat → Gemini.GenOutcome) :
    ∀ fuel attempt k, attempt ≤ k →
      k + 1 < (Gemini.retryLoopAux outcomes fuel attempt).attemptsUsed →
      ∃ m, outcomes k = .err m ∧ Gemini.isTransientLike (lowerStr m) = true ∧
           Gemini.isAuthLike (lowerStr m) = false := by
  intro fuel
  induction fuel with
  | zero =>
      intro attempt k hak h
      simp [Gemini.retryLoopAux] at h
      omega
  | succ fuel ih =>
      intro attempt k hak h
      unfold Gemini.retryLoopAux at h
      cases ho : outcomes attempt with
      | ok t => rw [ho] at h; simp at h; omega
      | err msg =>
          rw [ho] at h
          dsimp only at h
          split_ifs at h with h1 h2
          · simp at h; omega
          · rw [Bool.and_eq_true] at h2
            rcases Nat.eq_or_lt_of_le hak with rfl | hlt
            · exact ⟨msg, ho, h2.2, by simpa using h1⟩
            · exact ih (attempt + 1) k hlt (by simpa using h)
          · simp at h; omega

/-- Each endpoint of the multi-endpoint upload is fetched at most once. -/
theorem uploadLoop_attempts_le (agg : String) :
    ∀ attempts : List WalrusUpload.UploadAttempt,
      (WalrusUpload.uploadSessionViaWalrusSDK agg attempts).2 ≤ attempts.length := by
  intro attempts
  induction attempts with
  | nil => simp [WalrusUpload.uploadSessionViaWalrusSDK]
  | cons o rest ih =>
      unfold WalrusUpload.uploadSessionViaWalrusSDK
      cases o with
      | netErr m =>
          dsimp only
          split_ifs with h
          · simp
          · simpa using Nat.succ_le_succ ih
      | badStatus s t => simpa using Nat.succ_le_succ ih
      | okResponse j =>
          cases j with
          | error m =>
              dsimp only
              split_ifs with h
              · simp
              · simpa using Nat.succ_le_succ ih
          | ok json =>
              dsimp only
              split_ifs with h
              · simp
              · simp
              · simpa using Nat.succ_le_succ ih

/-- **C7.** The chat-completion call is retried at most `MAX_RETRIES = 2`
times, with linearly increasing backoff (`1000·1, 1000·2, …` ms); a retry
happens only when the failure looks transient (rate-limit / network /
timeout) and never when it looks like an authentication or API-key problem;
and the only other repeated operation, the multi-endpoint upload, performs at
most one attempt per endpoint. -/
theorem C7_retry_policy :
    (∀ outcomes, (Gemini.generatePlantResponse outcomes).2.attemptsUsed
        ≤ Gemini.MAX_RETRIES + 1) ∧
    (∀ outcomes, ∃ k, k ≤ Gemini.MAX_RETRIES ∧
        (Gemini.generatePlantResponse outcomes).2.delaysMs
          = (List.range k).map (fun j => 1000 * (j + 1))) ∧
    (∀ outcomes k, k + 1 < (Gemini.generatePlantResponse outcomes).2.attemptsUsed →
        ∃ m, outcomes k = .err m ∧ Gemini.isTransientLike (lowerStr m) = true ∧
             Gemini.isAuthLike (lowerStr m) = false) ∧
    (∀ outcomes k m, outcomes k = .err m → Gemini.isAuthLike (lowerStr m) = true →
        ¬ k + 1 < (Gemini.generatePlantResponse outcomes).2.attemptsUsed) ∧
    (∀ (agg : String) (attempts : List WalrusUpload.UploadAttempt),
        (WalrusUpload.uploadSessionViaWalrusSDK agg attempts).2 ≤ attempts.length) := by
  refine ⟨?_, ?_, ?_, ?_, uploadLoop_attempts_le⟩
  · intro outcomes
    rw [generatePlantResponse_snd]
    simpa using retryLoopAux_attempts_le outcomes (Gemini.MAX_RETRIES + 1) 0
  · intro outcomes
    rw [generatePlantResponse_snd]
    obtain ⟨k, hk, hkle⟩ := retryLoopAux_delays outcomes (Gemini.MAX_RETRIES + 1) 0
    refine ⟨k, by simpa using hkle, ?_⟩
    rw [hk]
    apply List.map_congr_left
    intro j _
    omega
  · intro outcomes k h
    rw [generatePlantResponse_snd] at h
    exact retryLoopAux_retried outcomes (Gemini.MAX_RETRIES + 1) 0 k (Nat.zero_le k) h
  · intro outcomes k m hm hauth hcon
    rw [generatePlantResponse_snd] at hcon
    obtain ⟨m', hm', _, hau'⟩ :=
      retryLoopAux_retried outcomes (Gemini.MAX_RETRIES + 1) 0 k (Nat.zero_le k) hcon
    rw [hm] at hm'
    cases hm'
    rw [hauth] at hau'
    exact Bool.true_eq_false.mp hau'

/-- Witness for C7: a persistent network failure is retried (so attempt 0 was
transient-looking), while an API-key failure is never retried. -/
theorem C7_retry_policy_witness :
    (∃ m, (fun _ => Gemini.GenOutcome.err "network down") 0 = .err m ∧
        Gemini.isTransientLike (lowerStr m) = true ∧
        Gemini.isAuthLike (lowerStr m) = false) ∧
    ¬ 0 + 1 < (Gemini.generatePlantResponse
        (fun _ => Gemini.GenOutcome.err "Invalid API key")).2.attemptsUsed :=
  ⟨C7_retry_policy.2.2.1 (fun _ => Gemini.GenOutcome.err "network down") 0 (by decide),
   C7_retry_policy.2.2.2.1 (fun _ => Gemini.GenOutcome.err "Invalid API key") 0
      "Invalid API key" rfl (by decide)⟩

/-! ## Claim C9 — serial-line parsing: frame property of `parseSerialLine` -/

namespace DeviceMonitor

theorem takeWhile_append_all (p : Char → Bool) :
    ∀ g r : List Char, (∀ c ∈ g, p c = true) →
      (g ++ r).takeWhile p = g ++ r.takeWhile p := by
  intro g
  induction g with
  | nil => intro r _; rfl
  | cons c g ih =>
      intro r h
      have hc := h c (List.mem_cons_self ..)
      rw [List.cons_append, List.takeWhile_cons, if_pos hc, List.cons_append,
        ih r (fun x hx => h x (List.mem_cons_of_mem _ hx))]

theorem dropWhile_append_all (p : Char → Bool) :
    ∀ g r : List Char, (∀ c ∈ g, p c = true) →
      (g ++ r).dropWhile p = r.dropWhile p := by
  intro g
  induction g with
  | nil => intro r _; rfl
  | cons c g ih =>
      intro r h
      have hc := h c (List.mem_cons_self ..)
      rw [List.cons_append, List.dropWhile_cons, if_pos hc,
        ih r (fun x hx => h x (List.mem_cons_of_mem _ hx))]

theorem isPrefixOf_decomp {p l : List Char} (h : p.isPrefixOf l = true) :
    l = p ++ l.drop p.length := by
  obtain ⟨t, ht⟩ := List.isPrefixOf_iff_prefix.mp h
  rw [← ht, List.drop_left]


theorem afterLit_some {lit : String} {cs rest : List Char}
    (h : afterLit lit cs = some rest) : cs = lit.toList ++ rest := by
  unfold afterLit at h
  split_ifs at h with hp
  obtain rfl : cs.drop lit.toList.length = rest := by simpa using h
  exact isPrefixOf_decomp hp

theorem afterLit_append (lit : String) (rest : List Char) :
    afterLit lit (lit.toList ++ rest) = some rest := by
  unfold afterLit
  rw [if_pos (List.isPrefixOf_iff_prefix.mpr (List.prefix_append ..)), List.drop_left]

theorem grabRun_some {cs g rest : List Char} (h : grabRun cs = some (g, rest)) :
    cs = g ++ rest ∧ ClassString g := by
  unfold grabRun at h
  split_ifs at h with he
  obtain ⟨rfl, rfl⟩ : cs.takeWhile isClassChar = g ∧ cs.dropWhile isClassChar = rest := by
    simpa using h
  refine ⟨(List.takeWhile_append_dropWhile ..).symm,
    ?_, fun c hc => List.mem_takeWhile_imp hc⟩
  intro hnil
  rw [hnil] at he
  exact he rfl

theorem grabRun_append (g r : List Char) (h : ClassString g) :
    grabRun (g ++ r) = some (g ++ r.takeWhile isClassChar, r.dropWhile isClassChar) := by
  unfold grabRun
  rw [takeWhile_append_all _ _ _ h.2, dropWhile_append_all _ _ _ h.2]
  rw [if_neg]
  intro hc
  rw [List.isEmpty_eq_true] at hc
  exact h.1 (List.append_eq_nil.mp hc).1

/-- Soundness of the position matcher: a successful match decomposes the
input as the regex requires. -/
theorem matchAt_decomp {cs g1 g2 g3 : List Char}
    (h : matchAt cs = some (g1, g2, g3)) :
    ∃ suf,
      cs = "TOP:".toList ++ (g1 ++ (",VAL:".toList ++ (g2
             ++ (",INT:".toList ++ (g3 ++ suf)))))
      ∧ ClassString g1 ∧ ClassString g2 ∧ ClassString g3 := by
  unfold matchAt at h
  cases e0 : afterLit "TOP:" cs with
  | none => simp [e0] at h
  | some rest0 =>
  simp only [e0] at h
  cases e1 : grabRun rest0 with
  | none => simp [e1] at h
  | some p1 =>
  obtain ⟨ga, rest1⟩ := p1
  simp only [e1] at h
  cases e2 : afterLit ",VAL:" rest1 with
  | none => simp [e2] at h
  | some rest2 =>
  simp only [e2] at h
  cases e3 : grabRun rest2 with
  | none => simp [e3] at h
  | some p2 =>
  obtain ⟨gb, rest3⟩ := p2
  simp only [e3] at h
  cases e4 : afterLit ",INT:" rest3 with
  | none => simp [e4] at h
  | some rest4 =>
  simp only [e4] at h
  cases e5 : grabRun rest4 with
  | none => simp [e5] at h
  | some p3 =>
  obtain ⟨gc, rest5⟩ := p3
  simp only [e5] at h
  obtain ⟨rfl, rfl, rfl⟩ : ga = g1 ∧ gb = g2 ∧ gc = g3 := by simpa using h
  obtain ⟨hr0, hc1⟩ := grabRun_some e1
  obtain ⟨hr2, hc2⟩ := grabRun_some e3
  obtain ⟨hr4, hc3⟩ := grabRun_some e5
  refine ⟨rest5, ?_, hc1, hc2, hc3⟩
  rw [afterLit_some e0, hr0, afterLit_some e2, hr2, afterLit_some e4, hr4]

/-- Completeness of the position matcher: a decomposition at the start of the
input yields a match (whose third group greedily extends into the suffix). -/
theorem matchAt_complete (g1 g2 g3 suf : List Char)
    (h1 : ClassString g1) (h2 : ClassString g2) (h3 : ClassString g3) :
    matchAt ("TOP:".toList ++ (g1 ++ (",VAL:".toList ++ (g2
        ++ (",INT:".toList ++ (g3 ++ suf))))))
      = some (g1, g2, g3 ++ suf.takeWhile isClassChar) := by
  have tV : ∀ X : List Char, (",VAL:".toList ++ X).takeWhile isClassChar = [] := by
    intro X
    rw [show (",VAL:".toList ++ X) = ',' :: ("VAL:".toList ++ X) from rfl,
      List.takeWhile_cons, if_neg (by decide)]
  have dV : ∀ X : List Char, (",VAL:".toList ++ X).dropWhile isClassChar
      = ",VAL:".toList ++ X := by
    intro X
    rw [show (",VAL:".toList ++ X) = ',' :: ("VAL:".toList ++ X) from rfl,
      List.dropWhile_cons, if_neg (by decide)]
  have tI : ∀ X : List Char, (",INT:".toList ++ X).takeWhile isClassChar = [] := by
    intro X
    rw [show (",INT:".toList ++ X) = ',' :: ("INT:".toList ++ X) from rfl,
      List.takeWhile_cons, if_neg (by decide)]
  have dI : ∀ X : List Char, (",INT:".toList ++ X).dropWhile isClassChar
      = ",INT:".toList ++ X := by
    intro X
    rw [show (",INT:".toList ++ X) = ',' :: ("INT:".toList ++ X) from rfl,
      List.dropWhile_cons, if_neg (by decide)]
  simp only [matchAt, afterLit_append, grabRun_append _ _ h1, grabRun_append _ _ h2,
    grabRun_append _ _ h3, tV, dV, tI, dI, List.append_nil]

/-- A match succeeding anywhere makes the left-to-right scan succeed. -/
theorem regexSearch_append (pre : List Char) :
    ∀ cs : List Char, (∃ r, matchAt cs = some r) →
      ∃ r, regexSearch (pre ++ cs) = some r := by
  induction pre with
  | nil =>
      intro cs hr
      obtain ⟨r, hr⟩ := hr
      cases cs with
      | nil =>
          rw [show matchAt ([] : List Char) = none from rfl] at hr
          exact absurd hr (by simp)
      | cons c rest => exact ⟨r, by simp [regexSearch, hr]⟩
  | cons c pre ih =>
      intro cs hr
      rw [List.cons_append]
      obtain ⟨r, hres⟩ := ih cs hr
      unfold regexSearch
      cases hm : matchAt (c :: (pre ++ cs)) with
      | some r2 => exact ⟨r2, rfl⟩
      | none => exact ⟨r, hres⟩

/-- The scan only succeeds on lines matching the regex, declaratively read. -/
theorem regexSearch_sound :
    ∀ cs g1 g2 g3, regexSearch cs = some (g1, g2, g3) → MatchesTVI cs := by
  intro cs
  induction cs with
  | nil => intro g1 g2 g3 h; simp [regexSearch] at h
  | cons c rest ih =>
      intro g1 g2 g3 h
      unfold regexSearch at h
      cases hm : matchAt (c :: rest) with
      | some r =>
          rw [hm] at h
          obtain ⟨ga, gb, gc⟩ := r
          obtain ⟨rfl, rfl, rfl⟩ : ga = g1 ∧ gb = g2 ∧ gc = g3 := by simpa using h
          obtain ⟨suf, hcs, h1, h2, h3⟩ := matchAt_decomp hm
          exact ⟨[], ga, gb, gc, suf, by simpa using hcs, h1, h2, h3⟩
      | none =>
          rw [hm] at h
          obtain ⟨pre, ga, gb, gc, suf, hcs, h1, h2, h3⟩ := ih g1 g2 g3 h
          exact ⟨c :: pre, ga, gb, gc, suf, by simp [hcs], h1, h2, h3⟩

/-- Every line matching the regex (declaratively read) is found by the scan. -/
theorem regexSearch_complete {cs : List Char} (h : MatchesTVI cs) :
    ∃ r, regexSearch cs = some r := by
  obtain ⟨pre, g1, g2, g3, suf, hcs, h1, h2, h3⟩ := h
  subst hcs
  exact regexSearch_append pre _ ⟨_, matchAt_complete g1 g2 g3 suf h1 h2 h3⟩

end DeviceMonitor

/-- **C9.** A serial line matches the code's regular expression exactly when
it contains `TOP:<run>,VAL:<run>,INT:<run>` with nonempty `[-0-9.]` runs; a
non-matching line leaves the hardware buffer fields (`topPoint`,
`interpolated`, `raw`) unchanged and raises no error (the parser is total),
while a matching line updates exactly those fields with the parsed float
values of the first and third matched groups.  (Every line, matching or not,
is still appended to the serial-monitor display buffer.) -/
theorem C9_serial_line_frame :
    (∀ line : String, (∃ g, DeviceMonitor.regexSearch line.toList = some g)
        ↔ DeviceMonitor.MatchesTVI line.toList) ∧
    (∀ st line, DeviceMonitor.regexSearch line.toList = none →
        (DeviceMonitor.parseSerialLine st line).hardware = st.hardware) ∧
    (∀ st line g1 g2 g3,
        DeviceMonitor.regexSearch line.toList = some (g1, g2, g3) →
        (DeviceMonitor.parseSerialLine st line).hardware
          = { st.hardware with
                topPoint := DeviceMonitor.parseFloatJS (String.mk g1)
                interpolated := DeviceMonitor.parseFloatJS (String.mk g3)
                raw := DeviceMonitor.parseFloatJS (String.mk g3) }) ∧
    (∀ st line, (DeviceMonitor.parseSerialLine st line).rawSerialBuffer
        = DeviceMonitor.pushSerialLine st.rawSerialBuffer line) := by
  refine ⟨?_, ?_, ?_, ?_⟩
  · intro line
    constructor
    · rintro ⟨⟨g1, g2, g3⟩, hg⟩
      exact DeviceMonitor.regexSearch_sound _ g1 g2 g3 hg
    · exact DeviceMonitor.regexSearch_complete
  · intro st line h
    simp only [String.toList] at h
    simp [DeviceMonitor.parseSerialLine, String.toList, h]
  · intro st line g1 g2 g3 h
    simp only [String.toList] at h
    simp [DeviceMonitor.parseSerialLine, String.toList, h]
  · intro st line
    cases h : DeviceMonitor.regexSearch line.toList with
    | none =>
        simp only [String.toList] at h
        simp [DeviceMonitor.parseSerialLine, String.toList, h]
    | some r =>
        obtain ⟨a, b, c⟩ := r
        simp only [String.toList] at h
        simp [DeviceMonitor.parseSerialLine, String.toList, h]

/-- Witness for C9: a malformed line leaves the hardware buffer untouched; a
well-formed line updates `topPoint`, `interpolated` and `raw`. -/
theorem C9_serial_line_frame_witness :
    (DeviceMonitor.parseSerialLine
        ⟨[], ⟨some 0, some 0, some 0, some 0, some 0⟩⟩ "hello world").hardware
      = (⟨[], ⟨some 0, some 0, some 0, some 0, some 0⟩⟩ :
          DeviceMonitor.MonitorState).hardware ∧
    (DeviceMonitor.parseSerialLine
        ⟨[], ⟨some 0, some 0, some 0, some 0, some 0⟩⟩ "TOP:55,VAL:3,INT:558.5").hardware
      = { (⟨[], ⟨some 0, some 0, some 0, some 0, some 0⟩⟩ :
            DeviceMonitor.MonitorState).hardware with
            topPoint := DeviceMonitor.parseFloatJS (String.mk "55".toList)
            interpolated := DeviceMonitor.parseFloatJS (String.mk "558.5".toList)
            raw := DeviceMonitor.parseFloatJS (String.mk "558.5".toList) } :=
  ⟨C9_serial_line_frame.2.1 _ "hello world" rfl,
   C9_serial_line_frame.2.2.1 _ "TOP:55,VAL:3,INT:558.5"
      "55".toList "3".toList "558.5".toList rfl⟩

/-! ## Claim C1 — connection vs. injection timing -/

/-- If the presence probe never succeeds, the polling loop exhausts its
retries, exiting `fuel` ticks after `start`. -/
theorem waitAux_never (envAt : Nat → SuiWallet.Env)
    (h : ∀ i, SuiWallet.checkSuiWalletInstalled (envAt i) = false) :
    ∀ fuel start, SuiWallet.waitForWalletAux envAt fuel start = (false, start + fuel) := by
  intro fuel
  induction fuel with
  | zero => intro start; simp [SuiWallet.waitForWalletAux]
  | succ fuel ih =>
      intro start
      rw [SuiWallet.waitForWalletAux, h start, if_neg (by simp), ih (start + 1)]
      congr 1
      omega

/-- If the presence probe first succeeds at tick `t`, the polling loop exits
at tick `t` with success. -/
theorem waitAux_first (envAt : Nat → SuiWallet.Env) (t : Nat)
    (hb : ∀ i, i < t → SuiWallet.checkSuiWalletInstalled (envAt i) = false)
    (ht : SuiWallet.checkSuiWalletInstalled (envAt t) = true) :
    ∀ fuel start, start ≤ t → t < start + fuel →
      SuiWallet.waitForWalletAux envAt fuel start = (true, t) := by
  intro fuel
  induction fuel with
  | zero => intro start h1 h2; omega
  | succ fuel ih =>
      intro start h1 h2
      rcases Nat.eq_or_lt_of_le h1 with rfl | hlt
      · rw [SuiWallet.waitForWalletAux, ht, if_pos rfl]
      · rw [SuiWallet.waitForWalletAux, hb start hlt, if_neg (by simp),
          ih (start + 1) hlt (by omega)]

/-- In the never-injected scenario every observed environment is empty. -/
theorem envAt_none (full : SuiWallet.Env) (tick : Nat) :
    SuiWallet.envAt full none tick = SuiWallet.emptyEnv := rfl

/-- **C1.** Over the spec's injection timings — provider present immediately
(`t = 0`), appearing at some tick `t` within the 100-tick (10 s) polling
window, or never — `connectSuiWallet` returns a valid account address exactly
when the provider was injected within the window; when no provider ever
appears it rejects with the not-found error after exactly the configured
10 000 ms of polling (neither immediately nor indefinitely), and when the
provider appears at tick `t` it connects after `100·t` ms ≤ 10 000 ms. -/
theorem C1_connect_injection_window (full : SuiWallet.Env) (addr : String)
    (ad : SuiWallet.Adapter) (inj : Option Nat)
    (hwin : ∀ t, inj = some t → t < 100)
    (hinst : SuiWallet.checkSuiWalletInstalled full = true)
    (hconn : SuiWallet.connectCascade full = .ok (addr, ad))
    (hvalid : addr ≠ "") :
    ((∃ a adp, (SuiWallet.connectSuiWallet (SuiWallet.envAt full inj)).1
          = .ok (a, adp) ∧ a ≠ "") ↔ inj.isSome) ∧
    (inj = none →
        (SuiWallet.connectSuiWallet (SuiWallet.envAt full inj)).1
            = .error SuiWallet.notFoundMsg ∧
        (SuiWallet.connectSuiWallet (SuiWallet.envAt full inj)).2 = 10000) ∧
    (∀ t, inj = some t →
        (SuiWallet.connectSuiWallet (SuiWallet.envAt full inj)).1 = .ok (addr, ad) ∧
        (SuiWallet.connectSuiWallet (SuiWallet.envAt full inj)).2 = 100 * t ∧
        (SuiWallet.connectSuiWallet (SuiWallet.envAt full inj)).2 ≤ 10000) := by
  cases inj with
  | none =>
      have hwait : SuiWallet.waitForWallet (SuiWallet.envAt full none) = (false, 100) := by
        have := waitAux_never (SuiWallet.envAt full none) (fun i => rfl) 100 0
        simpa [SuiWallet.waitForWallet] using this
      have hres : SuiWallet.connectSuiWallet (SuiWallet.envAt full none)
          = (.error SuiWallet.notFoundMsg, 10000) := by
        rw [SuiWallet.connectSuiWallet, hwait]
        rfl
      refine ⟨?_, fun _ => by rw [hres]; exact ⟨rfl, rfl⟩, fun t ht => by cases ht⟩
      rw [hres]
      simp
  | some t =>
      have htlt : t < 100 := hwin t rfl
      have hb : ∀ i, i < t →
          SuiWallet.checkSuiWalletInstalled (SuiWallet.envAt full (some t) i) = false := by
        intro i hi
        simp only [SuiWallet.envAt, if_neg (by omega : ¬ t ≤ i)]
        rfl
      have hat : SuiWallet.checkSuiWalletInstalled (SuiWallet.envAt full (some t) t)
          = true := by
        simpa [SuiWallet.envAt] using hinst
      have hwait : SuiWallet.waitForWallet (SuiWallet.envAt full (some t)) = (true, t) :=
        waitAux_first _ t hb hat 100 0 (Nat.zero_le t) (by omega)
      have henv : SuiWallet.envAt full (some t) t = full := by
        simp [SuiWallet.envAt]
      have hres : SuiWallet.connectSuiWallet (SuiWallet.envAt full (some t))
          = (.ok (addr, ad), 100 * t) := by
        rw [SuiWallet.connectSuiWallet, hwait]
        dsimp only
        rw [henv, hconn]
      constructor
      · rw [hres]
        simp only [Option.isSome_some, iff_true]
        exact ⟨addr, ad, rfl, hvalid⟩
      constructor
      · intro hcon; cases hcon
      · intro t' ht'
        obtain rfl : t' = t := by cases ht'; rfl
        rw [hres]
        exact ⟨rfl, rfl, by omega⟩

/-- Witness for C1: a legacy provider granting account `"0xA1"`, injected at
tick 0, connects immediately; the environment data also satisfies the
presence and cascade hypotheses. -/
theorem C1_connect_injection_window_witness :
    (SuiWallet.connectSuiWallet (SuiWallet.envAt
        { suiWallet := some ⟨.ok ["0xA1"], .ok true, .ok ["0xA1"], .ok ()⟩,
          suiet := none, sui := none, navWallets := none, extraKeys := [] }
        (some 0))).1
      = .ok ("0xA1", SuiWallet.Adapter.legacySuiWallet) ∧
    (SuiWallet.connectSuiWallet (SuiWallet.envAt
        { suiWallet := some ⟨.ok ["0xA1"], .ok true, .ok ["0xA1"], .ok ()⟩,
          suiet := none, sui := none, navWallets := none, extraKeys := [] }
        (some 0))).2 = 100 * 0 := by
  have h := (C1_connect_injection_window
      { suiWallet := some ⟨.ok ["0xA1"], .ok true, .ok ["0xA1"], .ok ()⟩,
        suiet := none, sui := none, navWallets := none, extraKeys := [] }
      "0xA1" SuiWallet.Adapter.legacySuiWallet (some 0)
      (by intro t ht; cases ht; omega) rfl rfl (by decide)).2.2 0 rfl
  exact ⟨h.1, h.2.1⟩
